import Mathlib

/-
  Verification development for PreTextClassify.py, an IMDB sentiment-analysis
  training script.  The script's observable data transformations are embedded
  shallowly: Python dicts become association lists with dict semantics
  (update in place on an existing key, append otherwise; lookup returns the
  first binding, which is the only one when keys are distinct), the Keras
  pad_sequences call is embedded from its documented semantics with the
  parameters of the call sites, and the model architecture, compile arguments
  and fit arguments are embedded as explicit records of the call sites.
-/

namespace PreTextClassify

/-- First-match lookup in an association list, the observable behaviour of a
Python dict access when keys are distinct. -/
def dlookup {α β : Type} [DecidableEq α] (k : α) : List (α × β) → Option β
  | [] => none
  | p :: ps => if p.1 = k then some p.2 else dlookup k ps

/-- Whether the association list binds the key. -/
def hasKey {α β : Type} [DecidableEq α] (m : List (α × β)) (k : α) : Bool :=
  m.any (fun p => decide (p.1 = k))

/-- Python dict item assignment: update an existing binding in place, keeping
its position, otherwise append the new binding at the end. -/
def dictInsert {α β : Type} [DecidableEq α] (m : List (α × β)) (k : α) (v : β) :
    List (α × β) :=
  if hasKey m k then m.map (fun p => if p.1 = k then (k, v) else p)
  else m ++ [(k, v)]

/-- Python dict construction from a list of pairs: later pairs with the same
key overwrite earlier ones. -/
def pydict {α β : Type} [DecidableEq α] (l : List (α × β)) : List (α × β) :=
  l.foldl (fun m p => dictInsert m p.1 p.2) []

/-- The four reserved control tokens inserted at IDs 0 to 3. -/
def controlTokens : List String :=
  [("<PAD>"), ("<START>"), ("<UNK>"), ("<UNUSED>")]

/-- The dict comprehension at line 36: shift every ID of the raw
imdb.get_word_index() map up by 3, keeping the words. -/
def raw_shift (raw : List (String × Nat)) : List (String × Nat) :=
  raw.map (fun p => (p.1, p.2 + 3))

/-- Lines 36 to 40: the shifted map with the four control entries assigned
at IDs 0 to 3. -/
def word_index (raw : List (String × Nat)) : List (String × Nat) :=
  dictInsert
    (dictInsert
      (dictInsert
        (dictInsert (raw_shift raw) ("<PAD>") 0)
        ("<START>") 1)
      ("<UNK>") 2)
    ("<UNUSED>") 3

/-- Line 42: the inverse map, a dict built from every (ID, word) pair obtained
by reversing the (word, ID) pairs of word_index. -/
def reverse_word_index (raw : List (String × Nat)) : List (Nat × String) :=
  pydict ((word_index raw).map (fun p => (p.2, p.1)))

/-- The list comprehension inside decode_review at line 46: one field per ID,
the mapped word when the ID is bound in the inverse map and a question mark
otherwise. -/
def decodeFields (raw : List (String × Nat)) (text : List Nat) : List String :=
  text.map (fun i => (dlookup i (reverse_word_index raw)).getD ("?"))

/-- Lines 45 to 46: decode_review joins the fields with single spaces. -/
def decode_review (raw : List (String × Nat)) (text : List Nat) : String :=
  String.intercalate (" ") (decodeFields raw text)

/-- Side from which keras.preprocessing.sequence.pad_sequences pads or
truncates. -/
inductive PadMode
  | pre
  | post
deriving DecidableEq

/-- The parameters of a pad_sequences call: pad value, padding side,
truncating side, target length. -/
structure PadConfig where
  value : Nat
  padding : PadMode
  truncating : PadMode
  maxlen : Nat
deriving DecidableEq

/-- Truncation step of pad_sequences: mode pre keeps the last maxlen
entries, mode post keeps the first maxlen entries. -/
def truncOne (t : PadMode) (maxlen : Nat) (s : List Nat) : List Nat :=
  match t with
  | PadMode.pre => s.drop (s.length - maxlen)
  | PadMode.post => s.take maxlen

/-- pad_sequences on one sequence: truncate, then fill with the pad value on
the configured side up to maxlen. -/
def padOne (cfg : PadConfig) (s : List Nat) : List Nat :=
  let trunc := truncOne cfg.truncating cfg.maxlen s
  match cfg.padding with
  | PadMode.post => trunc ++ List.replicate (cfg.maxlen - trunc.length) cfg.value
  | PadMode.pre => List.replicate (cfg.maxlen - trunc.length) cfg.value ++ trunc

/-- pad_sequences on a whole partition. -/
def pad_sequences (seqs : List (List Nat)) (cfg : PadConfig) : List (List Nat) :=
  seqs.map (padOne cfg)

/-- The parameters of the pad_sequences call on train_data at lines 68 to 69:
value word_index of PAD, padding post, truncating left at the keras default
pre, maxlen 256. -/
def trainPadConfig (raw : List (String × Nat)) : PadConfig :=
  ⟨(dlookup ("<PAD>") (word_index raw)).getD 0, PadMode.post, PadMode.pre, 256⟩

/-- The parameters of the pad_sequences call on test_data at line 71. -/
def testPadConfig (raw : List (String × Nat)) : PadConfig :=
  ⟨(dlookup ("<PAD>") (word_index raw)).getD 0, PadMode.post, PadMode.pre, 256⟩

/-- Line 122: the first 10,000 padded training rows become the validation
features. -/
def x_val (d : List (List Nat)) : List (List Nat) :=
  d.take 10000

/-- Line 124: the remaining padded training rows are the features actually
optimized over. -/
def partial_x_train (d : List (List Nat)) : List (List Nat) :=
  d.drop 10000

/-- Line 126: the first 10,000 training labels become the validation labels. -/
def y_val (l : List Nat) : List Nat :=
  l.take 10000

/-- Line 128: the remaining training labels. -/
def partial_y_train (l : List Nat) : List Nat :=
  l.drop 10000

/-- Line 88. -/
def vocab_size : Nat := 10000

/-- Activation functions named by the layer constructors of the script. -/
inductive Activation
  | relu
  | sigmoid
deriving DecidableEq

/-- The layer constructors used at lines 99 to 102, with their arguments. -/
inductive Layer
  | Embedding (input_dim output_dim : Nat)
  | GlobalAveragePooling1D
  | Dense (units : Nat) (activation : Activation)
deriving DecidableEq

/-- keras.Sequential model.add appends a layer at the end of the stack. -/
def addLayer (m : List Layer) (l : Layer) : List Layer :=
  m ++ [l]

/-- Lines 98 to 102: the four model.add calls on an empty Sequential model. -/
def model : List Layer :=
  addLayer
    (addLayer
      (addLayer
        (addLayer [] (Layer.Embedding vocab_size 16))
        Layer.GlobalAveragePooling1D)
      (Layer.Dense 16 Activation.relu))
    (Layer.Dense 1 Activation.sigmoid)

/-- Shape propagation through one layer, per-example shapes without the batch
axis: Embedding appends the embedding axis, GlobalAveragePooling1D averages
the sequence axis away, Dense maps the feature axis to its unit count. -/
def layerOutShape (l : Layer) (s : Option (List Nat)) : Option (List Nat) :=
  match l, s with
  | Layer.Embedding _ d, some [n] => some [n, d]
  | Layer.GlobalAveragePooling1D, some [_, d] => some [d]
  | Layer.Dense u _, some [_] => some [u]
  | _, _ => none

/-- Shape propagation through the whole stack. -/
def modelOutShape (ls : List Layer) (s : List Nat) : Option (List Nat) :=
  ls.foldl (fun acc l => layerOutShape l acc) (some s)

/-- The arguments of model.compile at line 116. -/
structure CompileArgs where
  optimizer : String
  loss : String
  metrics : List String
deriving DecidableEq

/-- Line 116. -/
def compileCall : CompileArgs :=
  ⟨("adam"), ("binary_crossentropy"), [("accuracy")]⟩

/-- The arguments of model.fit at line 134.  batch_size is an Option because
keras lets the caller omit it. -/
structure FitArgs where
  x : List (List Nat)
  y : List Nat
  epochs : Nat
  batch_size : Option Nat
  validation_x : List (List Nat)
  validation_y : List Nat
  verbose : Nat

/-- Documented keras Model.fit default used when batch_size is omitted. -/
def kerasDefaultBatchSize : Nat := 32

/-- The mini-batch size keras actually uses for a fit call. -/
def effectiveBatchSize (a : FitArgs) : Nat :=
  a.batch_size.getD kerasDefaultBatchSize

/-- Number of gradient updates per epoch: ceiling of examples over batch
size. -/
def stepsPerEpoch (n bs : Nat) : Nat :=
  (n + bs - 1) / bs

/-- Line 134: model.fit(partial_x_train, partial_y_train, epochs=40,
validation_data=(x_val, y_val), verbose=1), on the padded training features
and the raw training labels.  No batch_size argument is passed. -/
def fitCall (train_data : List (List Nat)) (train_labels : List Nat)
    (raw : List (String × Nat)) : FitArgs :=
  let padded := pad_sequences train_data (trainPadConfig raw)
  ⟨partial_x_train padded, partial_y_train train_labels, 40, none,
    x_val padded, y_val train_labels, 1⟩

/-- hasKey is false exactly when no binding carries the key. -/
theorem hasKey_false_iff {α β : Type} [DecidableEq α] {m : List (α × β)} {k : α} :
    hasKey m k = false ↔ ∀ p ∈ m, p.1 ≠ k := by
  simp [hasKey]

/-- hasKey distributes over append as a disjunction. -/
theorem hasKey_append_eq {α β : Type} [DecidableEq α] (m1 m2 : List (α × β)) (k : α) :
    hasKey (m1 ++ m2) k = (hasKey m1 k || hasKey m2 k) := by
  simp [hasKey, List.any_append]

/-- When the key is absent, dict assignment appends the binding. -/
theorem dictInsert_eq_append {α β : Type} [DecidableEq α] {m : List (α × β)} {k : α}
    (v : β) (h : hasKey m k = false) : dictInsert m k v = m ++ [(k, v)] := by
  simp [dictInsert, h]

/-- Looking up the assigned key after an in-place update finds the new value. -/
theorem dlookup_setAll {α β : Type} [DecidableEq α] {m : List (α × β)} {k : α} (v : β)
    (h : hasKey m k = true) :
    dlookup k (m.map (fun p => if p.1 = k then (k, v) else p)) = some v := by
  induction m with
  | nil => simp [hasKey] at h
  | cons p ps ih =>
    by_cases hp : p.1 = k
    · simp [dlookup, hp]
    · have hps : hasKey ps k = true := by
        simp [hasKey] at h ⊢
        rcases h with h | h
        · exact absurd h hp
        · exact h
      simp [dlookup, hp, ih hps]

/-- Looking up an appended fresh binding finds its value. -/
theorem dlookup_append_single {α β : Type} [DecidableEq α] {m : List (α × β)} {k : α}
    (v : β) (h : hasKey m k = false) : dlookup k (m ++ [(k, v)]) = some v := by
  induction m with
  | nil => simp [dlookup]
  | cons p ps ih =>
    have hp : p.1 ≠ k := (hasKey_false_iff.mp h) p (by simp)
    have hps : hasKey ps k = false := by
      rw [hasKey_false_iff]
      intro q hq
      exact (hasKey_false_iff.mp h) q (by simp [hq])
    simp [dlookup, hp, ih hps]

/-- Looking up the key just assigned by dictInsert finds the new value. -/
theorem dlookup_dictInsert_self {α β : Type} [DecidableEq α] (m : List (α × β))
    (k : α) (v : β) : dlookup k (dictInsert m k v) = some v := by
  unfold dictInsert
  by_cases h : hasKey m k
  · simp only [h, if_true]
    exact dlookup_setAll v h
  · simp only [Bool.not_eq_true] at h
    simp only [h, Bool.false_eq_true, if_false]
    exact dlookup_append_single v h

/-- In-place update of one key leaves lookups of every other key unchanged. -/
theorem dlookup_map_set_ne {α β : Type} [DecidableEq α] (m : List (α × β))
    {kq k : α} (v : β) (hne : kq ≠ k) :
    dlookup kq (m.map (fun p => if p.1 = k then (k, v) else p)) = dlookup kq m := by
  induction m with
  | nil => simp [dlookup]
  | cons p ps ih =>
    by_cases hp : p.1 = k
    · have hk : k ≠ kq := fun hk => hne hk.symm
      have hpq : p.1 ≠ kq := fun hq => hne (hq ▸ hp : kq = k)
      simp [dlookup, hp, hk, hpq, ih]
    · by_cases hq : p.1 = kq
      · simp [dlookup, hp, hq, hne]
      · simp [dlookup, hp, hq, ih]

/-- Appending a binding for a different key leaves a lookup unchanged. -/
theorem dlookup_append_single_ne {α β : Type} [DecidableEq α] (m : List (α × β))
    {kq k : α} (v : β) (hne : kq ≠ k) :
    dlookup kq (m ++ [(k, v)]) = dlookup kq m := by
  induction m with
  | nil =>
    simp only [List.nil_append, dlookup]
    exact if_neg fun hk => hne hk.symm
  | cons p ps ih =>
    by_cases hq : p.1 = kq
    · simp [dlookup, hq]
    · simp [dlookup, hq, ih]

/-- dictInsert leaves lookups of every other key unchanged. -/
theorem dlookup_dictInsert_ne {α β : Type} [DecidableEq α] (m : List (α × β))
    {kq k : α} (v : β) (hne : kq ≠ k) :
    dlookup kq (dictInsert m k v) = dlookup kq m := by
  unfold dictInsert
  by_cases h : hasKey m k
  · simp only [h, if_true]
    exact dlookup_map_set_ne m v hne
  · simp only [Bool.not_eq_true] at h
    simp only [h, Bool.false_eq_true, if_false]
    exact dlookup_append_single_ne m v hne

/-- A successful lookup exhibits a binding of the list. -/
theorem mem_of_dlookup {α β : Type} [DecidableEq α] {m : List (α × β)} {k : α} {v : β}
    (h : dlookup k m = some v) : (k, v) ∈ m := by
  induction m with
  | nil => simp [dlookup] at h
  | cons p ps ih =>
    by_cases hp : p.1 = k
    · simp only [dlookup, hp, if_true, Option.some.injEq] at h
      exact List.mem_cons.mpr (Or.inl (by cases p; simp_all))
    · simp only [dlookup, hp, if_false] at h
      exact List.mem_cons_of_mem _ (ih h)

/-- On a list with distinct keys, every binding is found by lookup. -/
theorem dlookup_of_mem_nodup {α β : Type} [DecidableEq α] {m : List (α × β)} {k : α}
    {v : β} (hmem : (k, v) ∈ m) (hnd : (m.map Prod.fst).Nodup) :
    dlookup k m = some v := by
  induction m with
  | nil => simp at hmem
  | cons p ps ih =>
    simp only [List.map_cons, List.nodup_cons] at hnd
    rcases List.mem_cons.mp hmem with h | h
    · simp [dlookup, ← h]
    · have hp : p.1 ≠ k := by
        intro hk
        exact hnd.1 (hk ▸ List.mem_map_of_mem Prod.fst h)
      simp [dlookup, hp, ih h hnd.2]

/-- Building a Python dict from pairs with distinct keys keeps the pairs as
they are. -/
theorem pydict_of_nodup_keys {α β : Type} [DecidableEq α] {l : List (α × β)}
    (hnd : (l.map Prod.fst).Nodup) : pydict l = l := by
  suffices h : ∀ (acc : List (α × β)), ((acc ++ l).map Prod.fst).Nodup →
      l.foldl (fun m p => dictInsert m p.1 p.2) acc = acc ++ l by
    simpa using h [] (by simpa using hnd)
  clear hnd
  induction l with
  | nil => intro acc _; simp
  | cons p ps ih =>
    intro acc hnd
    have hfresh : hasKey acc p.1 = false := by
      rw [hasKey_false_iff]
      intro q hq hqp
      have : (acc.map Prod.fst).Disjoint ((p :: ps).map Prod.fst) := by
        have := (List.nodup_append.mp (by simpa using hnd)).2.2
        exact this
      exact this (List.mem_map_of_mem Prod.fst hq) (by simp [hqp])
    have hstep : dictInsert acc p.1 p.2 = acc ++ [p] := by
      rw [dictInsert_eq_append _ hfresh]
    have hassoc : (acc ++ [p]) ++ ps = acc ++ p :: ps := by simp
    calc (p :: ps).foldl (fun m q => dictInsert m q.1 q.2) acc
        = ps.foldl (fun m q => dictInsert m q.1 q.2) (acc ++ [p]) := by
          simp [List.foldl_cons, hstep]
      _ = (acc ++ [p]) ++ ps := ih (acc ++ [p]) (by rw [hassoc]; exact hnd)
      _ = acc ++ p :: ps := hassoc

/-- Lookup in the shifted raw map is the shifted lookup in the raw map. -/
theorem dlookup_raw_shift (raw : List (String × Nat)) (w : String) :
    dlookup w (raw_shift raw) = (dlookup w raw).map (fun v => v + 3) := by
  induction raw with
  | nil => simp [raw_shift, dlookup]
  | cons p ps ih =>
    by_cases hp : p.1 = w
    · simp [raw_shift, dlookup, hp]
    · simp only [raw_shift, List.map_cons] at ih ⊢
      simp [dlookup, hp, ih]

/-- The PAD control entry always ends at ID 0, whatever the raw map holds. -/
theorem word_index_PAD (raw : List (String × Nat)) :
    dlookup ("<PAD>") (word_index raw) = some 0 := by
  unfold word_index
  rw [dlookup_dictInsert_ne _ _ (by decide), dlookup_dictInsert_ne _ _ (by decide),
    dlookup_dictInsert_ne _ _ (by decide), dlookup_dictInsert_self]

/-- The START control entry always ends at ID 1. -/
theorem word_index_START (raw : List (String × Nat)) :
    dlookup ("<START>") (word_index raw) = some 1 := by
  unfold word_index
  rw [dlookup_dictInsert_ne _ _ (by decide), dlookup_dictInsert_ne _ _ (by decide),
    dlookup_dictInsert_self]

/-- The UNK control entry always ends at ID 2. -/
theorem word_index_UNK (raw : List (String × Nat)) :
    dlookup ("<UNK>") (word_index raw) = some 2 := by
  unfold word_index
  rw [dlookup_dictInsert_ne _ _ (by decide), dlookup_dictInsert_self]

/-- The UNUSED control entry always ends at ID 3. -/
theorem word_index_UNUSED (raw : List (String × Nat)) :
    dlookup ("<UNUSED>") (word_index raw) = some 3 := by
  unfold word_index
  rw [dlookup_dictInsert_self]

/-- For a non-control word, word_index looks up the raw map and shifts by 3. -/
theorem word_index_of_not_control (raw : List (String × Nat)) {w : String}
    (hw : w ∉ controlTokens) :
    dlookup w (word_index raw) = (dlookup w raw).map (fun v => v + 3) := by
  have h0 : w ≠ ("<PAD>") := fun h => hw (by simp [controlTokens, h])
  have h1 : w ≠ ("<START>") := fun h => hw (by simp [controlTokens, h])
  have h2 : w ≠ ("<UNK>") := fun h => hw (by simp [controlTokens, h])
  have h3 : w ≠ ("<UNUSED>") := fun h => hw (by simp [controlTokens, h])
  unfold word_index
  rw [dlookup_dictInsert_ne _ _ h3, dlookup_dictInsert_ne _ _ h2,
    dlookup_dictInsert_ne _ _ h1, dlookup_dictInsert_ne _ _ h0,
    dlookup_raw_shift]

/-- The raw map never binds a given control token when no raw key is a
control token. -/
theorem hasKey_raw_shift_control {raw : List (String × Nat)}
    (hkeys : ∀ p ∈ raw, p.1 ∉ controlTokens) {c : String} (hc : c ∈ controlTokens) :
    hasKey (raw_shift raw) c = false := by
  rw [hasKey_false_iff]
  intro p hp
  rcases List.mem_map.mp hp with ⟨q, hq, hqp⟩
  intro hpc
  apply hkeys q hq
  have hqc : q.1 = c := by rw [← hqp] at hpc; simpa using hpc
  rw [hqc]
  exact hc

/-- When no raw key is a control token, the four control assignments append,
so word_index is the shifted raw map followed by the four control entries. -/
theorem word_index_decomp {raw : List (String × Nat)}
    (hkeys : ∀ p ∈ raw, p.1 ∉ controlTokens) :
    word_index raw = raw_shift raw ++
      [(("<PAD>"), 0), (("<START>"), 1), (("<UNK>"), 2), (("<UNUSED>"), 3)] := by
  have h0 : hasKey (raw_shift raw) ("<PAD>") = false :=
    hasKey_raw_shift_control hkeys (by decide)
  have h1 : hasKey (raw_shift raw ++ [(("<PAD>"), 0)]) ("<START>") = false := by
    rw [hasKey_append_eq, hasKey_raw_shift_control hkeys (by decide)]
    decide
  have h2 : hasKey ((raw_shift raw ++ [(("<PAD>"), 0)]) ++ [(("<START>"), 1)])
      ("<UNK>") = false := by
    rw [hasKey_append_eq, hasKey_append_eq, hasKey_raw_shift_control hkeys (by decide)]
    decide
  have h3 : hasKey (((raw_shift raw ++ [(("<PAD>"), 0)]) ++ [(("<START>"), 1)]) ++
      [(("<UNK>"), 2)]) ("<UNUSED>") = false := by
    rw [hasKey_append_eq, hasKey_append_eq, hasKey_append_eq,
      hasKey_raw_shift_control hkeys (by decide)]
    decide
  unfold word_index
  rw [dictInsert_eq_append _ h0, dictInsert_eq_append _ h1, dictInsert_eq_append _ h2,
    dictInsert_eq_append _ h3]
  simp

/-- The truncation step never returns more than maxlen entries. -/
theorem truncOne_length_le (t : PadMode) (maxlen : Nat) (s : List Nat) :
    (truncOne t maxlen s).length ≤ maxlen := by
  cases t with
  | pre =>
    simp only [truncOne, List.length_drop]
    omega
  | post =>
    simp only [truncOne, List.length_take]
    omega

/-- Every padded sequence has exactly the target length. -/
theorem padOne_length (cfg : PadConfig) (s : List Nat) :
    (padOne cfg s).length = cfg.maxlen := by
  have h := truncOne_length_le cfg.truncating cfg.maxlen s
  cases hp : cfg.padding with
  | pre =>
    simp only [padOne, hp, List.length_append, List.length_replicate]
    omega
  | post =>
    simp only [padOne, hp, List.length_append, List.length_replicate]
    omega

/-- The parameters of the train-partition call evaluate to pad value 0,
padding post, truncating pre, target length 256. -/
theorem trainPadConfig_eq (raw : List (String × Nat)) :
    trainPadConfig raw = ⟨0, PadMode.post, PadMode.pre, 256⟩ := by
  unfold trainPadConfig
  rw [word_index_PAD]
  rfl

/-- Claim C2, corrected.  The call site leaves truncating at the keras
default pre, so a sequence longer than 256 is truncated from the beginning:
the result is exactly the last 256 tokens, position i of the result being
position (length - 256) + i of the input. -/
theorem claim_C2 (raw : List (String × Nat)) (s : List Nat) (h : 256 < s.length) :
    padOne (trainPadConfig raw) s = s.drop (s.length - 256) ∧
    (padOne (trainPadConfig raw) s).length = 256 ∧
    ∀ i : Nat, (padOne (trainPadConfig raw) s)[i]? = s[(s.length - 256) + i]? := by
  rw [trainPadConfig_eq]
  have hlen : (s.drop (s.length - 256)).length = 256 := by
    rw [List.length_drop]
    omega
  have hmain : padOne ⟨0, PadMode.post, PadMode.pre, 256⟩ s = s.drop (s.length - 256) := by
    simp only [padOne, truncOne, hlen]
    simp
  refine ⟨hmain, by rw [hmain, hlen], fun i => ?_⟩
  rw [hmain, List.getElem?_drop]

set_option maxRecDepth 8000 in
/-- Claim C2 as stated is false at the 257-token sequence 0,1,...,256: the
padded result is not the first 256 tokens, and the token from original
position 256 is present in it. -/
theorem claim_C2_counterexample :
    256 < (List.range 257).length ∧
    padOne (trainPadConfig []) (List.range 257) ≠ (List.range 257).take 256 ∧
    (List.range 257)[256]? = some 256 ∧
    256 ∈ padOne (trainPadConfig []) (List.range 257) := by
  refine ⟨by decide, by decide, by decide, by decide⟩

set_option maxRecDepth 8000 in
/-- Witness for claim C2 at the sequence 0,1,...,256. -/
theorem claim_C2_witness :
    256 < (List.range 257).length ∧
    padOne (trainPadConfig []) (List.range 257) =
      (List.range 257).drop ((List.range 257).length - 256) :=
  ⟨by decide, (claim_C2 [] (List.range 257) (by decide)).1⟩

/-- Claim C6: pad_sequences keeps the number of sequences, forces every
output to length 256, extends shorter inputs at the end with pad value 0,
and the train and test call sites pass identical parameters, namely pad
value 0, padding post, truncating pre, target length 256. -/
theorem claim_C6 (raw : List (String × Nat)) (seqs : List (List Nat)) :
    (pad_sequences seqs (trainPadConfig raw)).length = seqs.length ∧
    (∀ s ∈ pad_sequences seqs (trainPadConfig raw), s.length = 256) ∧
    (∀ s ∈ seqs, s.length ≤ 256 →
      padOne (trainPadConfig raw) s = s ++ List.replicate (256 - s.length) 0) ∧
    trainPadConfig raw = testPadConfig raw ∧
    trainPadConfig raw = ⟨0, PadMode.post, PadMode.pre, 256⟩ := by
  refine ⟨by simp [pad_sequences], ?_, ?_, rfl, trainPadConfig_eq raw⟩
  · intro s hs
    rcases List.mem_map.mp hs with ⟨t, _, ht⟩
    rw [← ht, padOne_length, trainPadConfig_eq]
  · intro s _ hlen
    rw [trainPadConfig_eq]
    have hz : s.length - 256 = 0 := by omega
    simp [padOne, truncOne, hz]

/-- Witness for claim C6 at the two-token sequence 5, 6. -/
theorem claim_C6_witness :
    ([5, 6] : List Nat) ∈ ([[5, 6]] : List (List Nat)) ∧
    ([5, 6] : List Nat).length ≤ 256 ∧
    padOne (trainPadConfig []) [5, 6] =
      ([5, 6] : List Nat) ++ List.replicate (256 - ([5, 6] : List Nat).length) 0 :=
  ⟨by decide, by decide, (claim_C6 [] [[5, 6]]).2.2.1 [5, 6] (by decide) (by decide)⟩

/-- Claim C7: the validation split takes the first 10,000 rows of features
and labels, the training subset is exactly the remaining rows, for 25,000
input rows the parts have sizes 10,000 and 15,000, their concatenation is
the original partition, and the two parts read disjoint index ranges of it. -/
theorem claim_C7 (xs : List (List Nat)) (ys : List Nat)
    (hx : xs.length = 25000) (hy : ys.length = 25000) :
    x_val xs ++ partial_x_train xs = xs ∧
    y_val ys ++ partial_y_train ys = ys ∧
    (x_val xs).length = 10000 ∧
    (partial_x_train xs).length = 15000 ∧
    (y_val ys).length = 10000 ∧
    (partial_y_train ys).length = 15000 ∧
    (∀ i : Nat, (partial_x_train xs)[i]? = xs[10000 + i]?) ∧
    (∀ i : Nat, i < 10000 → (x_val xs)[i]? = xs[i]?) := by
  refine ⟨List.take_append_drop _ _, List.take_append_drop _ _, ?_, ?_, ?_, ?_,
    fun i => List.getElem?_drop xs 10000 i, fun i hi => ?_⟩
  · rw [x_val, List.length_take]
    omega
  · rw [partial_x_train, List.length_drop]
    omega
  · rw [y_val, List.length_take]
    omega
  · rw [partial_y_train, List.length_drop]
    omega
  · rw [x_val, List.getElem?_take, if_pos hi]

/-- Witness for claim C7 at a 25,000-row partition. -/
theorem claim_C7_witness :
    (List.replicate 25000 ([] : List Nat)).length = 25000 ∧
    (List.replicate 25000 (0 : Nat)).length = 25000 ∧
    (partial_x_train (List.replicate 25000 ([] : List Nat))).length = 15000 :=
  ⟨List.length_replicate 25000 [], List.length_replicate 25000 0,
    (claim_C7 (List.replicate 25000 []) (List.replicate 25000 0)
      (List.length_replicate 25000 []) (List.length_replicate 25000 0)).2.2.2.1⟩

/-- Claim C3: word_index binds the four control tokens to IDs 0 to 3, binds
every other word to its raw ID shifted up by 3, consists of exactly the
shifted raw entries plus the four control entries when no raw key is a
control token, and reverse_word_index is the dict of the reversed pairs. -/
theorem claim_C3 (raw : List (String × Nat)) :
    dlookup ("<PAD>") (word_index raw) = some 0 ∧
    dlookup ("<START>") (word_index raw) = some 1 ∧
    dlookup ("<UNK>") (word_index raw) = some 2 ∧
    dlookup ("<UNUSED>") (word_index raw) = some 3 ∧
    (∀ w : String, w ∉ controlTokens →
      dlookup w (word_index raw) = (dlookup w raw).map (fun v => v + 3)) ∧
    ((∀ p ∈ raw, p.1 ∉ controlTokens) →
      word_index raw = raw_shift raw ++
        [(("<PAD>"), 0), (("<START>"), 1), (("<UNK>"), 2), (("<UNUSED>"), 3)]) ∧
    reverse_word_index raw = pydict ((word_index raw).map (fun p => (p.2, p.1))) :=
  ⟨word_index_PAD raw, word_index_START raw, word_index_UNK raw,
    word_index_UNUSED raw, fun _ hw => word_index_of_not_control raw hw,
    fun hkeys => word_index_decomp hkeys, rfl⟩

/-- Witness for claim C3 at a one-word raw map. -/
theorem claim_C3_witness :
    (("hello") ∉ controlTokens) ∧
    dlookup ("hello") (word_index [(("hello"), 1)]) =
      (dlookup ("hello") [(("hello"), 1)]).map (fun v => v + 3) ∧
    dlookup ("hello") (word_index [(("hello"), 1)]) = some 4 :=
  ⟨by decide, (claim_C3 [(("hello"), 1)]).2.2.2.2.1 ("hello") (by decide), by decide⟩

/-- Claim C4: decode_review is the space-join of one field per input ID,
where a field is the mapped word when the inverse map binds the ID and a
question mark when it does not; the function is a total pure function. -/
theorem claim_C4 (raw : List (String × Nat)) (text : List Nat) :
    decode_review raw text = String.intercalate (" ") (decodeFields raw text) ∧
    (decodeFields raw text).length = text.length ∧
    (∀ k i : Nat, text[k]? = some i →
      dlookup i (reverse_word_index raw) = none →
      (decodeFields raw text)[k]? = some ("?")) ∧
    (∀ (k i : Nat) (w : String), text[k]? = some i →
      dlookup i (reverse_word_index raw) = some w →
      (decodeFields raw text)[k]? = some w) := by
  refine ⟨rfl, by simp [decodeFields], ?_, ?_⟩
  · intro k i hk hnone
    rw [decodeFields, List.getElem?_map, hk]
    simp [hnone]
  · intro k i w hk hsome
    rw [decodeFields, List.getElem?_map, hk]
    simp [hsome]

/-- Witness for claim C4: ID 9999 is unmapped and decodes to a question
mark. -/
theorem claim_C4_witness :
    ([4, 9999] : List Nat)[1]? = some 9999 ∧
    dlookup 9999 (reverse_word_index [(("hello"), 1)]) = none ∧
    (decodeFields [(("hello"), 1)] [4, 9999])[1]? = some ("?") :=
  ⟨by decide, by decide,
    (claim_C4 [(("hello"), 1)] [4, 9999]).2.2.1 1 9999 (by decide) (by decide)⟩

/-- Claim C5: when the word-to-ID map has distinct words and distinct IDs and
every ID of the sequence is an ID of the map, decoding and then re-encoding
each resulting word returns the original ID sequence. -/
theorem claim_C5 (raw : List (String × Nat)) (text : List Nat)
    (hk : ((word_index raw).map Prod.fst).Nodup)
    (hv : ((word_index raw).map Prod.snd).Nodup)
    (hmem : ∀ i ∈ text, i ∈ (word_index raw).map Prod.snd) :
    (decodeFields raw text).map (fun w => dlookup w (word_index raw)) =
      text.map some ∧
    decode_review raw text = String.intercalate (" ") (decodeFields raw text) := by
  refine ⟨?_, rfl⟩
  have hswap : (((word_index raw).map (fun p => (p.2, p.1))).map Prod.fst) =
      (word_index raw).map Prod.snd := by
    simp [List.map_map]
  have hrwi : reverse_word_index raw = (word_index raw).map (fun p => (p.2, p.1)) := by
    rw [reverse_word_index, pydict_of_nodup_keys]
    rw [hswap]
    exact hv
  rw [decodeFields, List.map_map]
  apply List.map_congr_left
  intro i hi
  rcases List.mem_map.mp (hmem i hi) with ⟨p, hp, hpi⟩
  have hswapmem : (i, p.1) ∈ (word_index raw).map (fun p => (p.2, p.1)) := by
    rcases List.mem_map.mp (List.mem_map_of_mem (fun p => (p.2, p.1)) hp)
      with ⟨q, hq, hqe⟩
    rw [← hpi]
    exact List.mem_map_of_mem _ hp
  have h1 : dlookup i (reverse_word_index raw) = some p.1 := by
    rw [hrwi]
    exact dlookup_of_mem_nodup hswapmem (by rw [hswap]; exact hv)
  have hmemp : (p.1, p.2) ∈ word_index raw := by
    cases p
    exact hp
  have h2 : dlookup p.1 (word_index raw) = some p.2 := dlookup_of_mem_nodup hmemp hk
  simp [Function.comp, h1, h2, hpi]

/-- Witness for claim C5 at a two-word raw map and the sequence 4, 1, 5. -/
theorem claim_C5_witness :
    ((word_index [(("hello"), 1), (("world"), 2)]).map Prod.fst).Nodup ∧
    ((word_index [(("hello"), 1), (("world"), 2)]).map Prod.snd).Nodup ∧
    (∀ i ∈ ([4, 1, 5] : List Nat),
      i ∈ (word_index [(("hello"), 1), (("world"), 2)]).map Prod.snd) ∧
    (decodeFields [(("hello"), 1), (("world"), 2)] [4, 1, 5]).map
        (fun w => dlookup w (word_index [(("hello"), 1), (("world"), 2)])) =
      ([4, 1, 5] : List Nat).map some :=
  ⟨by decide, by decide, by decide,
    (claim_C5 [(("hello"), 1), (("world"), 2)] [4, 1, 5]
      (by decide) (by decide) (by decide)).1⟩

/-- Claim C9: decode_review of the empty ID sequence is the empty string. -/
theorem claim_C9 (raw : List (String × Nat)) :
    decode_review raw ([] : List Nat) = "" :=
  rfl

/-- Claim C10 as stated is false: with the raw map binding the word PAD
to 1, every raw ID is at least 1, yet the control assignment overwrites the
shifted entry by key, so that word does not keep its ID increased by 3. -/
theorem claim_C10_counterexample :
    (∀ p ∈ [(("<PAD>"), 1)], 1 ≤ p.2) ∧
    dlookup ("<PAD>") (word_index [(("<PAD>"), 1)]) = some 0 ∧
    dlookup ("<PAD>") (word_index [(("<PAD>"), 1)]) ≠ some (1 + 3) := by
  refine ⟨by decide, by decide, by decide⟩

/-- Claim C10, corrected.  When additionally no raw key is one of the four
control token strings, shifting puts every real word at an ID of at least 4,
the four control assignments append without overwriting, and every original word
keeps its ID increased by exactly 3. -/
theorem claim_C10 (raw : List (String × Nat))
    (hvals : ∀ p ∈ raw, 1 ≤ p.2)
    (hkeys : ∀ p ∈ raw, p.1 ∉ controlTokens)
    (hnodup : (raw.map Prod.fst).Nodup) :
    (∀ p ∈ word_index raw, p.1 ∉ controlTokens → 4 ≤ p.2) ∧
    (∀ p ∈ raw, dlookup p.1 (word_index raw) = some (p.2 + 3)) ∧
    word_index raw = raw_shift raw ++
      [(("<PAD>"), 0), (("<START>"), 1), (("<UNK>"), 2), (("<UNUSED>"), 3)] := by
  have hdec := word_index_decomp hkeys
  refine ⟨?_, ?_, hdec⟩
  · intro p hp hpc
    rw [hdec] at hp
    rcases List.mem_append.mp hp with h | h
    · rcases List.mem_map.mp h with ⟨q, hq, hqp⟩
      have hq1 := hvals q hq
      rw [← hqp]
      simp only []
      omega
    · exfalso
      apply hpc
      simp only [List.mem_cons, List.not_mem_nil, or_false] at h
      rcases h with h | h | h | h <;> (rw [h]; decide)
  · intro p hp
    have hpc := hkeys p hp
    have hmemp : (p.1, p.2) ∈ raw := by
      cases p
      exact hp
    rw [word_index_of_not_control raw hpc, dlookup_of_mem_nodup hmemp hnodup]
    rfl

/-- Witness for claim C10 at a one-word raw map with raw ID 1. -/
theorem claim_C10_witness :
    (∀ p ∈ [(("hello"), 1)], 1 ≤ p.2) ∧
    (∀ p ∈ [(("hello"), 1)], p.1 ∉ controlTokens) ∧
    ([(("hello"), 1)].map Prod.fst).Nodup ∧
    dlookup ("hello") (word_index [(("hello"), 1)]) = some (1 + 3) :=
  ⟨by decide, by decide, by decide,
    (claim_C10 [(("hello"), 1)] (by decide) (by decide) (by decide)).2.1
      (("hello"), 1) (by decide)⟩

/-- Claim C1, at the fit call of line 134: 40 epochs over the 15,000-row
training subset with 10,000 validation rows, but no batch_size argument is
passed, so keras falls back to its documented default of 32, not 512, and
runs 469 gradient updates per epoch. -/
theorem claim_C1 (td : List (List Nat)) (tl : List Nat) (raw : List (String × Nat))
    (hx : td.length = 25000) (hy : tl.length = 25000) :
    (fitCall td tl raw).epochs = 40 ∧
    (fitCall td tl raw).x.length = 15000 ∧
    (fitCall td tl raw).y.length = 15000 ∧
    (fitCall td tl raw).validation_x.length = 10000 ∧
    (fitCall td tl raw).validation_y.length = 10000 ∧
    (fitCall td tl raw).batch_size = none ∧
    effectiveBatchSize (fitCall td tl raw) = 32 ∧
    effectiveBatchSize (fitCall td tl raw) ≠ 512 ∧
    stepsPerEpoch (fitCall td tl raw).x.length
      (effectiveBatchSize (fitCall td tl raw)) = 469 := by
  have hpad : (pad_sequences td (trainPadConfig raw)).length = 25000 := by
    rw [pad_sequences, List.length_map, hx]
  have hxlen : (fitCall td tl raw).x.length = 15000 := by
    show (partial_x_train (pad_sequences td (trainPadConfig raw))).length = 15000
    rw [partial_x_train, List.length_drop, hpad]
  refine ⟨rfl, hxlen, ?_, ?_, ?_, rfl, rfl, ?_, ?_⟩
  · show (partial_y_train tl).length = 15000
    rw [partial_y_train, List.length_drop, hy]
  · show (x_val (pad_sequences td (trainPadConfig raw))).length = 10000
    rw [x_val, List.length_take, hpad]
    omega
  · show (y_val tl).length = 10000
    rw [y_val, List.length_take, hy]
    omega
  · show (32 : Nat) ≠ 512
    decide
  · rw [hxlen]
    show stepsPerEpoch 15000 32 = 469
    decide

/-- Witness for claim C1 at a 25,000-row training partition. -/
theorem claim_C1_witness :
    (List.replicate 25000 ([] : List Nat)).length = 25000 ∧
    (List.replicate 25000 (0 : Nat)).length = 25000 ∧
    effectiveBatchSize
      (fitCall (List.replicate 25000 []) (List.replicate 25000 0) []) = 32 :=
  ⟨List.length_replicate 25000 [], List.length_replicate 25000 0,
    (claim_C1 (List.replicate 25000 []) (List.replicate 25000 0) []
      (List.length_replicate 25000 []) (List.length_replicate 25000 0)).2.2.2.2.2.2.1⟩

/-- Claim C8: the model is the four-layer stack embedding, global average
pooling, dense 16 relu, dense 1 sigmoid over the 10,000-word vocabulary,
compiled with the adam optimizer, binary cross-entropy loss and accuracy as
the tracked metric; the stack maps a length-256 sequence to a single
scalar. -/
theorem claim_C8 :
    model = [Layer.Embedding vocab_size 16, Layer.GlobalAveragePooling1D,
      Layer.Dense 16 Activation.relu, Layer.Dense 1 Activation.sigmoid] ∧
    model.length = 4 ∧
    vocab_size = 10000 ∧
    compileCall.optimizer = ("adam") ∧
    compileCall.loss = ("binary_crossentropy") ∧
    compileCall.metrics = [("accuracy")] ∧
    modelOutShape model [256] = some [1] :=
  ⟨rfl, rfl, rfl, rfl, rfl, rfl, rfl⟩

end PreTextClassify
